import Mathlib

/-
Verification development for a collection of transcript-harvesting scripts
(YouTube caption fetching, yt-dlp caption fill, faster-whisper fallback,
RSS podcast transcription).  Pure functions of the scripts are embedded as
executable Lean definitions; the stateful per-item pipeline passes are
embedded as explicit state transformers over an `ItemState` record, and a
run over a list of items is explicit list recursion.  External collaborators
(the transcript API, yt-dlp, the whisper model, the network) are modelled
as oracles passed in as function arguments; "no change in the source data"
between two runs is modelled by using the same oracle for both runs.
-/

namespace Harvest

/-! ## Characters and small string utilities

Python's `\s` on the lines handled here is modelled by the six ASCII
whitespace characters; `\d` and `isalnum` are modelled by the ASCII
`Char.isDigit` / `Char.isAlphanum`. -/

/-- Python `\s` whitespace class (space, tab, newline, carriage return,
vertical tab, form feed). -/
def isSpc (c : Char) : Bool :=
  c == ' ' || c == '\t' || c == '\n' || c == '\r' || c == '\x0b' || c == '\x0c'

/-- The path-unsafe characters of the regex class in `safe_name`:
`[\\/:*?"<>|]`. -/
def isUnsafeChar (c : Char) : Bool :=
  c == '\\' || c == '/' || c == ':' || c == '*' || c == '?' ||
  c == '"' || c == '<' || c == '>' || c == '|'

/-- `re.sub(r"[\\/:*?\"<>|]+", "_", s)`: each maximal run of unsafe
characters becomes a single underscore.  The boolean records whether the
previous character belonged to a run being replaced. -/
def subUnsafeAux : Bool → List Char → List Char
  | _, [] => []
  | inRun, c :: cs =>
    if isUnsafeChar c then
      if inRun then subUnsafeAux true cs else '_' :: subUnsafeAux true cs
    else c :: subUnsafeAux false cs

/-- `re.sub(r"\s+", " ", s)`: each maximal run of whitespace becomes a
single space. -/
def collapseWsAux : Bool → List Char → List Char
  | _, [] => []
  | inRun, c :: cs =>
    if isSpc c then
      if inRun then collapseWsAux true cs else ' ' :: collapseWsAux true cs
    else c :: collapseWsAux false cs

/-- Python `str.strip()`: drop leading and trailing whitespace. -/
def stripChars (l : List Char) : List Char :=
  ((l.dropWhile isSpc).reverse.dropWhile isSpc).reverse

/-- Python `str.strip()` on a `String`. -/
def stripS (s : String) : String :=
  String.mk (stripChars s.data)

/-- `"sep".join(xs)` (used with `"\n"` and `" "` in the scripts). -/
def joinWith (sep : String) : List String → String
  | [] => ""
  | x :: rest => rest.foldl (fun acc l => acc ++ sep ++ l) x

/-- `safe_name` from `scripts/fetch_youtube_transcripts.py` (identical
copies in `fill_with_ytdlp.py`, `whisper_fill_missing.py`,
`fetch_and_transcribe_youtube.py`):

    s = re.sub(r"[\\/:*?\"<>|]+", "_", s)
    s = re.sub(r"\s+", " ", s).strip()
    return s[:160]
-/
def safe_name (s : String) : String :=
  String.mk ((stripChars (collapseWsAux false (subUnsafeAux false s.data))).take 160)

/-- The per-item folder name of `fetch_youtube_transcripts.main`:
`f"{(date + ' - ') if date else ''}{safe_name(title)} [{vid}]"`. -/
def folder_name (date title vid : String) : String :=
  (if date ≠ "" then date ++ " - " else "") ++ safe_name title ++ " [" ++ vid ++ "]"

/-- The video-id extraction used by the fill passes on a folder name:
`folder.name.split("[")[-1][:-1]` (text after the last `[`, minus the
final character). -/
def extractVid (name : String) : String :=
  String.mk (((name.data.reverse.takeWhile (fun c => c ≠ '[')).reverse).dropLast)

/-- The inline sanitizer of `fetch_transcripts.py`:
`"".join(c for c in title if c.isalnum() or c in (" ", "-", "_")).rstrip()`. -/
def keepEpChar (c : Char) : Bool :=
  c.isAlphanum || c == ' ' || c == '-' || c == '_'

/-- Sanitized episode title of `fetch_transcripts.py` (filter then
`rstrip()`). -/
def ep_safe (title : String) : String :=
  String.mk ((title.data.filter keepEpChar).reverse.dropWhile isSpc).reverse

/-- The per-episode file name of `fetch_transcripts.main`:
`f"{pub}_{safe_name[:80]}_{vid}.txt"`. -/
def ep_name (pub title vid : String) : String :=
  pub ++ "_" ++ String.mk ((ep_safe title).data.take 80) ++ "_" ++ vid ++ ".txt"

/-! ## Decimal rendering and the `[mm:ss]` marker -/

/-- Decimal digits of `n`, most significant first.  The first argument is
fuel; `decDigits` supplies `n` itself, which always dominates the number
of recursive steps (one per digit beyond the first), so the fuel-0 branch
is reached only with a single-digit argument and agrees with the real
value there. -/
def decDigitsAux : Nat → Nat → List Char
  | 0, n => [Nat.digitChar n]
  | fuel + 1, n =>
    if n < 10 then [Nat.digitChar n]
    else decDigitsAux fuel (n / 10) ++ [Nat.digitChar (n % 10)]

/-- Decimal digit string of a natural number (Python `"%d"`). -/
def decDigits (n : Nat) : List Char :=
  decDigitsAux n n

/-- Decimal representation as a `String`. -/
def decRepr (n : Nat) : String :=
  String.mk (decDigits n)

/-- Python `f"{n:02d}"`: decimal, zero-padded on the left to a minimum
width of two (three or more digits are printed in full). -/
def pad2 (n : Nat) : String :=
  if n < 10 then "0" ++ decRepr n else decRepr n

/-- The `[mm:ss]` marker: `f"[{mm:02d}:{ss:02d}]"` with
`mm = int(start // 60)` and `ss = int(start % 60)`.  Start offsets are
modelled as whole seconds (`Nat`); for a nonnegative float start `s`,
`int(s // 60) = ⌊s⌋ / 60` and `int(s % 60) = ⌊s⌋ % 60`, so the floor of
the float start is the faithful input here. -/
def timeMarker (s : Nat) : String :=
  "[" ++ pad2 (s / 60) ++ ":" ++ pad2 (s % 60) ++ "]"

/-- One output line per caption chunk, as in `chunks_to_text` of
`fetch_youtube_transcripts.py`: `f"[{mm:02d}:{ss:02d}] {c['text']}"`. -/
def chunkLines (chunks : List (Nat × String)) : List String :=
  chunks.map (fun c => timeMarker c.1 ++ " " ++ c.2)

/-- `chunks_to_text` from `fetch_youtube_transcripts.py`
(`"\n".join(lines)`). -/
def chunks_to_text (chunks : List (Nat × String)) : String :=
  joinWith "\n" (chunkLines chunks)

/-- The per-segment lines written by `transcribe_with_faster_whisper`
(`whisper_fill_missing.py` and `fetch_and_transcribe_youtube.py`):
`f"[{mm:02d}:{ss:02d}] {seg.text.strip()}\n"`, one line per detected
speech segment. -/
def whisperLines (segs : List (Nat × String)) : List String :=
  segs.map (fun c => timeMarker c.1 ++ " " ++ stripS c.2)

/-! ## VTT → plain text (`vtt_to_txt` of `fill_with_ytdlp.py`;
`fill_missing_captions.py` carries the same function with the same
skip conditions) -/

/-- `"-->" in line` (Python substring test). -/
def containsArrow (l : String) : Bool :=
  l.data.tails.any (fun t => ("-->".data).isPrefixOf t)

/-- Match of the cue-timestamp regex
`(\d{2}):(\d{2}):(\d{2})\.\d+\s-->\s(\d{2}):(\d{2}):(\d{2})\.\d+`
anchored at the start of the character list. -/
def matchTsAt (cs : List Char) : Bool :=
  match cs with
  | a :: b :: ':' :: c :: d :: ':' :: e :: f :: '.' :: rest =>
    (a.isDigit && b.isDigit && c.isDigit && d.isDigit && e.isDigit && f.isDigit) &&
    (!(rest.takeWhile Char.isDigit).isEmpty) &&
    (match rest.dropWhile Char.isDigit with
     | w :: '-' :: '-' :: '>' :: w2 :: a2 :: b2 :: ':' :: c2 :: d2 :: ':' :: e2 :: f2 :: '.' :: rest2 =>
       isSpc w && isSpc w2 &&
       (a2.isDigit && b2.isDigit && c2.isDigit && d2.isDigit && e2.isDigit && f2.isDigit) &&
       !(rest2.takeWhile Char.isDigit).isEmpty
     | _ => false)
  | _ => false

/-- `ts_re.search(line)`: the timestamp pattern occurs somewhere in the
line. -/
def tsSearch (l : String) : Bool :=
  l.data.tails.any matchTsAt

/-- `line.startswith("WEBVTT")`. -/
def startsWebvtt (l : String) : Bool :=
  ("WEBVTT".data).isPrefixOf l.data

/-- `re.match(r"^\d+$", line)`: the line is nonempty and consists only of
digits (a cue-numbering line). -/
def digitsOnly (l : String) : Bool :=
  !l.data.isEmpty && l.data.all Char.isDigit

/-- `re.sub(r"</?[^>]+>", "", line)`: remove HTML-style markup tags.  A
tag is a `<`, at least one following character that is not `>`, and a
closing `>` (leftmost, non-overlapping, as `re.sub` scans).  The fuel is
the length of the list; every recursive call consumes at least one
character, so the fuel-0 branch is unreachable from `removeTags`. -/
def removeTagsAux : Nat → List Char → List Char
  | 0, cs => cs
  | _ + 1, [] => []
  | fuel + 1, c :: cs =>
    if c = '<' then
      match cs.dropWhile (fun d => d ≠ '>') with
      | '>' :: tail =>
        if (cs.takeWhile (fun d => d ≠ '>')).isEmpty then c :: removeTagsAux fuel cs
        else removeTagsAux fuel tail
      | _ => c :: removeTagsAux fuel cs
    else c :: removeTagsAux fuel cs

/-- Markup-tag removal on a line. -/
def removeTags (cs : List Char) : List Char :=
  removeTagsAux cs.length cs

/-- The per-line cleanup of `vtt_to_txt`: strip tags, collapse whitespace,
strip the ends (`re.sub(r"</?[^>]+>", "", line)` then
`re.sub(r"\s+", " ", line).strip()`). -/
def cleanseLine (l : String) : String :=
  String.mk (stripChars (collapseWsAux false (removeTags l.data)))

/-- The skip conditions of the `vtt_to_txt` loop: blank line, `WEBVTT`
header, cue-timestamp line, cue-numbering line. -/
def skipVttLine (l : String) : Bool :=
  (l == "") || startsWebvtt l || (containsArrow l && tsSearch l) || digitsOnly l

/-- The list of lines `vtt_to_txt` keeps, in input order. -/
def vttKeptLines : List String → List String
  | [] => []
  | l :: ls =>
    if skipVttLine l then vttKeptLines ls
    else if cleanseLine l == "" then vttKeptLines ls
    else cleanseLine l :: vttKeptLines ls

/-- `vtt_to_txt` over the (newline-stripped) lines of a VTT file:
`"\n".join(lines)`. -/
def vtt_to_txt (lines : List String) : String :=
  joinWith "\n" (vttKeptLines lines)

/-- Spoken-text line, in the words of the claim: not a `WEBVTT` header
line, not a cue-numbering line (digits only), not a timestamp cue line
(contains `-->` with `hh:mm:ss` timestamps), not blank, and still
non-empty once markup tags are stripped and whitespace normalized. -/
def isSpokenLine (l : String) : Bool :=
  !(l == "") && !(startsWebvtt l) && !(containsArrow l && tsSearch l) &&
  !(digitsOnly l) && !(cleanseLine l == "")

/-! ## The transcript resolver (`fetch_transcript_chunks` of
`fetch_youtube_transcripts.py`)

Each candidate attempt (`find_manually_created_transcript([lang]).fetch()`,
`find_generated_transcript([lang]).fetch()`, `t.translate("en").fetch()`)
either returns chunks, raises a "no captions of this kind" condition, or
raises some other exception (network, quota, malformed response).  The
surrounding `try ... except: pass` does not inspect the exception, so the
embedding records all three outcomes and lets the code decide. -/

/-- Outcome of one candidate attempt. -/
inductive Attempt where
  | found (chunks : List (Nat × String))
  | miss
  | err (msg : String)
deriving DecidableEq

/-- A caption track as seen by the translated-captions loop. -/
structure CaptionTrack where
  is_translatable : Bool
  translated : Attempt
deriving DecidableEq

/-- The `list_transcripts` result: per-language manual and generated
lookup-and-fetch, plus the iterable list of tracks. -/
structure TranscriptListing where
  manual : String → Attempt
  generated : String → Attempt
  tracks : List CaptionTrack

/-- Exceptions the Python API can raise from `list_transcripts` itself. -/
inductive PyExc where
  | transcriptsDisabled (msg : String)
  | otherExc (msg : String)
deriving DecidableEq

/-- How the `list_transcripts` call itself behaves: modern API (returns a
listing), old API (raises `AttributeError`, triggering the
`get_transcript` fallback), or any other exception (propagates). -/
inductive ListingResult where
  | ok (tl : TranscriptListing)
  | attrError (byLang : String → Attempt) (dflt : Attempt)
  | raised (e : PyExc)

/-- Failure of the whole resolver: its own `NoTranscriptFound` (all
candidates missed) or a propagated exception. -/
inductive FetchErr where
  | notFound (msg : String)
  | raisedExc (e : PyExc)
deriving DecidableEq

/-- Which candidate source produced the returned chunks. -/
inductive SourceTag where
  | manual
  | auto
  | translated
  | legacy
deriving DecidableEq

/-- First attempt in the list that returned chunks; both `miss` and `err`
are swallowed by the bare `except: pass` and scanning continues. -/
def firstFoundA : List Attempt → Option (List (Nat × String))
  | [] => none
  | Attempt.found c :: _ => some c
  | Attempt.miss :: rest => firstFoundA rest
  | Attempt.err _ :: rest => firstFoundA rest

/-- The translated-caption candidates: `for t in tlist: if
t.is_translatable: try return t.translate("en").fetch()`. -/
def translatedAttempts (tl : TranscriptListing) : List Attempt :=
  (tl.tracks.filter (fun t => t.is_translatable)).map (fun t => t.translated)

/-- The message of the resolver's own `NoTranscriptFound`. -/
def noTranscriptMsg : String :=
  "No available transcript (manual/auto/translated)."

/-- `fetch_transcript_chunks(video_id, langs)`, with the behaviour of the
external API for this video supplied as `listing`.  The result carries the
source tag of the branch that returned (the branch is observable in the
code even though Python returns only the chunks). -/
def fetch_transcript_chunks (listing : ListingResult) (langs : List String) :
    Except FetchErr (SourceTag × List (Nat × String)) :=
  match listing with
  | ListingResult.ok tl =>
    match firstFoundA (langs.map tl.manual) with
    | some c => Except.ok (SourceTag.manual, c)
    | none =>
      match firstFoundA (langs.map tl.generated) with
      | some c => Except.ok (SourceTag.auto, c)
      | none =>
        match firstFoundA (translatedAttempts tl) with
        | some c => Except.ok (SourceTag.translated, c)
        | none => Except.error (FetchErr.notFound noTranscriptMsg)
  | ListingResult.attrError byLang dflt =>
    match firstFoundA (langs.map byLang) with
    | some c => Except.ok (SourceTag.legacy, c)
    | none =>
      match dflt with
      | Attempt.found c => Except.ok (SourceTag.legacy, c)
      | _ => Except.error (FetchErr.notFound "get_transcript fallback failed")
  | ListingResult.raised e => Except.error (FetchErr.raisedExc e)

/-- The candidate chain in the resolver's priority order: manual captions
per preferred language, then generated captions per preferred language,
then translated captions from any translatable track. -/
def candidates (tl : TranscriptListing) (langs : List String) :
    List (SourceTag × Attempt) :=
  langs.map (fun l => (SourceTag.manual, tl.manual l)) ++
  langs.map (fun l => (SourceTag.auto, tl.generated l)) ++
  (translatedAttempts tl).map (fun a => (SourceTag.translated, a))

/-- First candidate in the chain that yields content, with its tag. -/
def firstContent : List (SourceTag × Attempt) → Option (SourceTag × List (Nat × String))
  | [] => none
  | (tag, Attempt.found c) :: _ => some (tag, c)
  | _ :: rest => firstContent rest

/-- Did this attempt yield content? -/
def isFound : Attempt → Bool
  | Attempt.found _ => true
  | _ => false

/-- Replace every candidate-level hard error by a soft miss. -/
def eraseErr : Attempt → Attempt
  | Attempt.err _ => Attempt.miss
  | a => a

/-- A listing in which every candidate-level hard error is replaced by a
soft miss. -/
def eraseErrListing (tl : TranscriptListing) : TranscriptListing where
  manual := fun l => eraseErr (tl.manual l)
  generated := fun l => eraseErr (tl.generated l)
  tracks := tl.tracks.map (fun t => { t with translated := eraseErr t.translated })

/-! ## Per-item pipeline state and passes -/

/-- On-disk state of one item's folder: `transcript.txt`,
`NO_TRANSCRIPT.txt`, `ERROR.txt`, `metadata.txt` (each `none` when
absent, `some content` when present). -/
structure ItemState where
  transcript : Option String
  marker : Option String
  errorFile : Option String
  meta : Option String
deriving DecidableEq

/-- An item folder with nothing written yet. -/
def emptyItem : ItemState :=
  ItemState.mk none none none none

/-- Per-item outcome of the external transcript fetch as the driver of
`fetch_youtube_transcripts.main` sees it: chunks, a
`TranscriptsDisabled`/`NoTranscriptFound` condition, or any other
exception. -/
inductive Outcome where
  | ok (chunks : List (Nat × String))
  | noCaptions (msg : String)
  | err (msg : String)

/-- Map the resolver result to the driver-level outcome, following the
`except (TranscriptsDisabled, NoTranscriptFound)` /
`except Exception` handlers of `fetch_youtube_transcripts.main`. -/
def driverOutcome : Except FetchErr (SourceTag × List (Nat × String)) → Outcome
  | Except.ok (_, c) => Outcome.ok c
  | Except.error (FetchErr.notFound m) => Outcome.noCaptions m
  | Except.error (FetchErr.raisedExc (PyExc.transcriptsDisabled m)) => Outcome.noCaptions m
  | Except.error (FetchErr.raisedExc (PyExc.otherExc m)) => Outcome.err m

/-- One item of the caption-fetch pass of `fetch_youtube_transcripts.main`:
skip when `transcript.txt` exists; on success write `metadata.txt` and
`transcript.txt`; on a no-captions condition write `NO_TRANSCRIPT.txt`
and `metadata.txt`; on any other error write `ERROR.txt`. -/
def entryStep (o : Outcome) (metaText : String) (st : ItemState) : ItemState :=
  if st.transcript.isSome then st
  else
    match o with
    | Outcome.ok chunks =>
      { st with meta := some metaText, transcript := some (chunks_to_text chunks) }
    | Outcome.noCaptions m =>
      { st with marker := some m, meta := some metaText }
    | Outcome.err m =>
      { st with errorFile := some m }

/-- One item of the yt-dlp caption fill pass (`fill_with_ytdlp.main`):
skip when `transcript.txt` exists or `NO_TRANSCRIPT.txt` is absent;
otherwise run yt-dlp, and when it produced a VTT (`vtt = some lines`)
convert it; only a non-blank conversion is written, and then the
`NO_TRANSCRIPT.txt` marker is removed. -/
def fillStep (vtt : Option (List String)) (st : ItemState) : ItemState :=
  if st.transcript.isSome then st
  else if st.marker.isNone then st
  else
    match vtt with
    | none => st
    | some lines =>
      if stripS (vtt_to_txt lines) == "" then st
      else { st with transcript := some (vtt_to_txt lines), marker := none }

/-- `fillStep` together with whether the pass reached its external
yt-dlp caption download for this item (it does exactly when the item is
not skipped by the `transcript.txt` / `NO_TRANSCRIPT.txt` check). -/
def fillStepTraced (vtt : Option (List String)) (st : ItemState) :
    ItemState × Bool :=
  (fillStep vtt st, !(st.transcript.isSome || st.marker.isNone))

/-! ## Full caption-fetch run (`fetch_youtube_transcripts.main`) -/

/-- A listed video as produced by `list_videos`. -/
structure Video where
  id : String
  title : String
  date : String
  url : String

/-- The `metadata.txt` content written for a video. -/
def metaOf (v : Video) : String :=
  "Title: " ++ v.title ++ "\nVideoID: " ++ v.id ++ "\nURL: " ++ v.url ++
  "\nDate: " ++ v.date ++ "\n"

/-- The Ingestion Store: per-item state keyed by video id (with distinct
ids the deterministic folder name is a bijective function of the video,
so keying by id is equivalent to keying by folder). -/
def Store : Type :=
  String → ItemState

/-- The store with no item folders. -/
def emptyStore : Store :=
  fun _ => emptyItem

/-- Point update of the store. -/
def updateStore (s : Store) (id : String) (e : ItemState) : Store :=
  fun j => if j = id then e else s j

/-- One driver step on the store: consult the item's folder, and when
`transcript.txt` is absent make the external fetch (outcome given by the
oracle `or`, keyed by video id — unchanged source data means an unchanged
oracle). -/
def stepStore (or : String → Outcome) (v : Video) (s : Store) : Store :=
  updateStore s v.id (entryStep (or v.id) (metaOf v) (s v.id))

/-- Store after a full pass over the listed videos. -/
def runStore (or : String → Outcome) : List Video → Store → Store
  | [], s => s
  | v :: vs, s => runStore or vs (stepStore or v s)

/-- Per-item network calls of a pass: one transcript fetch for every item
whose `transcript.txt` does not exist at the moment it is visited (the
skip check precedes the call). -/
def runCalls (or : String → Outcome) : List Video → Store → Nat
  | [], _ => 0
  | v :: vs, s =>
    (if (s v.id).transcript.isSome then 0 else 1) + runCalls or vs (stepStore or v s)

/-- One full pass: final store and total network calls.  The leading `1`
is the source-listing call (`yt-dlp -J --flat-playlist`), made before any
per-item check on every run. -/
def runPass (or : String → Outcome) (vs : List Video) (s : Store) : Store × Nat :=
  (runStore or vs s, 1 + runCalls or vs s)

/-! ## Speech-to-text fill pass (`whisper_fill_missing.py`) -/

/-- External behaviour for the whisper fill pass: whether the yt-dlp
audio download of an item succeeds, and what the model transcription
yields for it. -/
structure WOracle where
  downloadOk : String → Bool
  transcribe : String → Except String String

/-- Per-item observation of the whisper fill pass. -/
inductive WOutcome where
  | saved (text : String)
  | errored (msg : String)
  | downloadFailed
deriving DecidableEq

/-- Result of a whisper fill run: the items reached with their outcomes,
how many times `WhisperModel(...)` was constructed, and whether the run
aborted early. -/
structure WRes where
  outcomes : List (String × WOutcome)
  loads : Nat
  aborted : Bool
deriving DecidableEq

/-- The loop of `whisper_fill_missing.main` over the items that still
need a transcript.  The audio download uses `run(cmd)`, which raises
`SystemExit` on failure; nothing in the loop catches it, so a download
failure ends the whole run.  A successful download always constructs a
fresh `WhisperModel` inside `transcribe_with_faster_whisper`; a
transcription failure is caught per item (`ERROR.txt`) and the loop
continues. -/
def whisperFillRun (or : WOracle) : List String → WRes
  | [] => WRes.mk [] 0 false
  | v :: rest =>
    if or.downloadOk v then
      let r := whisperFillRun or rest
      match or.transcribe v with
      | Except.ok t => WRes.mk ((v, WOutcome.saved t) :: r.outcomes) (r.loads + 1) r.aborted
      | Except.error e => WRes.mk ((v, WOutcome.errored e) :: r.outcomes) (r.loads + 1) r.aborted
    else
      WRes.mk [(v, WOutcome.downloadFailed)] 0 true

/-! ## Combined fetch-and-transcribe pass (`fetch_and_transcribe_youtube.py`) -/

/-- External behaviour for the combined pass: the (total, never-raising)
API transcript text, the audio download, and the whisper transcription. -/
structure FOracle where
  apiText : String → String
  downloadOk : String → Bool
  whisper : String → Except String String

/-- Per-item outcome of the combined pass. -/
inductive FOutcome where
  | skipped
  | savedApi (text : String)
  | savedWhisper (text : String)
  | audioFailed
  | whisperError (msg : String)
deriving DecidableEq

/-- One item of `fetch_and_transcribe_youtube.main` (item = video id plus
whether its `transcript.txt` already exists).  Every failure mode is
handled inside the loop body (`continue`, `except Exception`), so the
step is a total function and the loop visits every item. -/
def fatItemStep (or : FOracle) (p : String × Bool) : FOutcome :=
  if p.2 then FOutcome.skipped
  else if or.apiText p.1 ≠ "" then FOutcome.savedApi (or.apiText p.1)
  else if !(or.downloadOk p.1) then FOutcome.audioFailed
  else
    match or.whisper p.1 with
    | Except.ok t => FOutcome.savedWhisper t
    | Except.error e => FOutcome.whisperError e

/-- The full loop of `fetch_and_transcribe_youtube.main`. -/
def fatRun (or : FOracle) (items : List (String × Bool)) : List FOutcome :=
  items.map (fatItemStep or)

/-! ## RSS whisper run (`rss_whisper.py`, `FeedTranscriber.transcribe`) -/

/-- An RSS episode, reduced to its filesystem slug. -/
structure RssEpisode where
  slug : String
deriving DecidableEq

/-- External behaviour for one `FeedTranscriber.transcribe` run: whether
the episode's transcript file already exists, and whether downloading its
audio enclosure succeeds. -/
structure RssOracle where
  existing : String → Bool
  downloadOk : String → Bool

/-- Does this episode reach the download/transcription branch (and hence
need the model)? -/
def rssNeedsModel (skipExisting : Bool) (existing : String → Bool)
    (e : RssEpisode) : Bool :=
  !(skipExisting && existing e.slug)

/-- The loop of `FeedTranscriber.transcribe`: the model starts unloaded
(`model = None`); an episode whose transcript exists is skipped without a
download; otherwise the audio is downloaded first — `download_episode`
raises on failure with no per-episode handler, so a failed download
aborts the whole run (the `finally` only drops the model reference) —
and only after a successful download is the model lazily loaded
(`if model is None: model = self._load_model()`) and reused for every
later episode.  The result is the number of `WhisperModel(...)`
constructions performed before the run ended, and whether it aborted.
A transcription failure would likewise abort the run, but only after its
episode's load, so it cannot change the load count and is not modelled
separately. -/
def rssRunAux (skipExisting : Bool) (or : RssOracle) :
    Bool → List RssEpisode → Nat × Bool
  | _, [] => (0, false)
  | loaded, e :: rest =>
    if skipExisting && or.existing e.slug then rssRunAux skipExisting or loaded rest
    else if or.downloadOk e.slug then
      if loaded then rssRunAux skipExisting or true rest
      else
        ((rssRunAux skipExisting or true rest).1 + 1, (rssRunAux skipExisting or true rest).2)
    else (0, true)

/-- One `transcribe` run: model loads performed and whether it aborted
early on a download failure. -/
def rssRun (skipExisting : Bool) (or : RssOracle) (eps : List RssEpisode) : Nat × Bool :=
  rssRunAux skipExisting or false eps

/-! ## `get_transcript_text` of `fetch_transcripts.py` (claim C10) -/

/-- Everything `YouTubeTranscriptApi.get_transcript` can do for a video. -/
inductive ApiOutcome where
  | ok (chunks : List (Nat × String))
  | disabled
  | notFound
  | unavailable
  | otherExc (msg : String)

/-- Is this outcome one of the failure modes? -/
def isFailureOutcome : ApiOutcome → Bool
  | ApiOutcome.ok _ => false
  | _ => true

/-- `get_transcript_text` of `fetch_transcripts.py`: on success,
`" ".join(chunk["text"] for chunk in transcript if chunk.get("text")).strip()`;
every failure — `TranscriptsDisabled`, `NoTranscriptFound`,
`VideoUnavailable`, or any other exception — returns the empty string. -/
def get_transcript_text (o : ApiOutcome) : String :=
  match o with
  | ApiOutcome.ok chunks =>
    stripS (joinWith " " (chunks.filterMap (fun c => if c.2 = "" then none else some c.2)))
  | _ => ""

/-- The per-episode section written by `fetch_transcripts.main`. -/
def episodeSection (title url pub text : String) : String :=
  if text = "" then
    "### " ++ title ++ "\nURL: " ++ url ++ "\nDate: " ++ pub ++
      "\n\n(No transcript available)\n\n"
  else
    "### " ++ title ++ "\nURL: " ++ url ++ "\nDate: " ++ pub ++
      "\n\n" ++ text ++ "\n\n"

/-- The `has_transcript` flag recorded in `index.json`
(`bool(text)`). -/
def hasTranscriptFlag (text : String) : Bool :=
  text ≠ ""

/-! ## Helper lemmas -/

theorem data_append (a b : String) : (a ++ b).data = a.data ++ b.data := by
  cases a
  cases b
  rfl

theorem mem_dropWhile {p : Char → Bool} {l : List Char} {c : Char}
    (h : c ∈ l.dropWhile p) : c ∈ l := by
  induction l with
  | nil => simp at h
  | cons a as ih =>
    simp only [List.dropWhile] at h
    cases hp : p a with
    | true =>
      simp only [hp] at h
      exact List.mem_cons_of_mem a (ih h)
    | false =>
      simp only [hp] at h
      exact h

theorem takeWhile_append_of {p : Char → Bool} :
    ∀ (as : List Char) (b : Char) (bs : List Char),
      (∀ a ∈ as, p a = true) → p b = false →
      (as ++ b :: bs).takeWhile p = as := by
  intro as
  induction as with
  | nil =>
    intro b bs _ hb
    rw [List.nil_append, List.takeWhile_cons_of_neg (by simp [hb])]
  | cons a rest ih =>
    intro b bs hall hb
    have ha : p a = true := hall a (List.mem_cons_self a rest)
    rw [show (a :: rest) ++ b :: bs = a :: (rest ++ b :: bs) from rfl,
      List.takeWhile_cons_of_pos ha,
      ih b bs (fun x hx => hall x (List.mem_cons_of_mem a hx)) hb]

/-! ## C7: VTT to plain text -/

theorem isSpoken_eq (l : String) :
    isSpokenLine l = (!skipVttLine l && !(cleanseLine l == "")) := by
  unfold isSpokenLine skipVttLine
  cases (l == "") <;> cases startsWebvtt l <;>
    cases (containsArrow l && tsSearch l) <;> cases digitsOnly l <;>
    cases (cleanseLine l == "") <;> rfl

theorem vttKeptLines_eq (ls : List String) :
    vttKeptLines ls = (ls.filter isSpokenLine).map cleanseLine := by
  induction ls with
  | nil => rfl
  | cons l ls ih =>
    by_cases h1 : skipVttLine l = true
    · have hsp : isSpokenLine l = false := by rw [isSpoken_eq, h1]; rfl
      simp [vttKeptLines, h1, hsp, ih]
    · have h1' : skipVttLine l = false := by
        rw [Bool.eq_false_iff]; simpa using h1
      by_cases h2 : (cleanseLine l == "") = true
      · have hsp : isSpokenLine l = false := by rw [isSpoken_eq, h1', h2]; rfl
        simp [vttKeptLines, h1', h2, hsp, ih]
      · have h2' : (cleanseLine l == "") = false := by
          rw [Bool.eq_false_iff]; simpa using h2
        have hsp : isSpokenLine l = true := by rw [isSpoken_eq, h1', h2']; rfl
        simp [vttKeptLines, h1', h2', hsp, ih]

/-- C7: for every list of subtitle-file lines, `vtt_to_txt` removes the
`WEBVTT` header lines, the cue-numbering lines (digits only), the
timestamp cue lines (containing `-->` with `hh:mm:ss` timestamps) and the
HTML-style markup tags, and every line that still carries spoken text
after markup stripping is kept, cleaned, in its original line order: the
output is exactly the in-order cleanup of the spoken-text lines. -/
theorem claim7_vtt_plaintext (lines : List String) :
    vtt_to_txt lines = joinWith "\n" ((lines.filter isSpokenLine).map cleanseLine) := by
  unfold vtt_to_txt
  rw [vttKeptLines_eq]

/-! ## C8: filename safety -/

theorem mem_subUnsafeAux {c : Char} :
    ∀ (b : Bool) (l : List Char), c ∈ subUnsafeAux b l → isUnsafeChar c = false := by
  intro b l
  induction l generalizing b with
  | nil => intro h; simp [subUnsafeAux] at h
  | cons a as ih =>
    intro h
    by_cases ha : isUnsafeChar a = true
    · simp only [subUnsafeAux, ha, if_true] at h
      cases b with
      | true => exact ih true (by simpa using h)
      | false =>
        simp only [Bool.false_eq_true, if_false, List.mem_cons] at h
        rcases h with rfl | h
        · decide
        · exact ih true h
    · have ha' : isUnsafeChar a = false := by rw [Bool.eq_false_iff]; simpa using ha
      simp only [subUnsafeAux, ha', Bool.false_eq_true, if_false, List.mem_cons] at h
      rcases h with rfl | h
      · exact ha'
      · exact ih false h

theorem mem_collapseWsAux {c : Char} :
    ∀ (b : Bool) (l : List Char), (∀ x ∈ l, isUnsafeChar x = false) →
      c ∈ collapseWsAux b l → isUnsafeChar c = false := by
  intro b l
  induction l generalizing b with
  | nil => intro _ h; simp [collapseWsAux] at h
  | cons a as ih =>
    intro hall h
    have hall' : ∀ x ∈ as, isUnsafeChar x = false :=
      fun x hx => hall x (List.mem_cons_of_mem a hx)
    by_cases ha : isSpc a = true
    · simp only [collapseWsAux, ha, if_true] at h
      cases b with
      | true => exact ih true hall' (by simpa using h)
      | false =>
        simp only [Bool.false_eq_true, if_false, List.mem_cons] at h
        rcases h with rfl | h
        · decide
        · exact ih true hall' h
    · have ha' : isSpc a = false := by rw [Bool.eq_false_iff]; simpa using ha
      simp only [collapseWsAux, ha', Bool.false_eq_true, if_false, List.mem_cons] at h
      rcases h with heq | h
      · rw [heq]; exact hall a (List.mem_cons_self a as)
      · exact ih false hall' h

theorem mem_stripChars {c : Char} {l : List Char} (h : c ∈ stripChars l) : c ∈ l := by
  unfold stripChars at h
  rw [List.mem_reverse] at h
  have h2 := mem_dropWhile h
  rw [List.mem_reverse] at h2
  exact mem_dropWhile h2

theorem keepEp_char_ok (c : Char) (h : keepEpChar c = true) : isUnsafeChar c = false := by
  cases hu : isUnsafeChar c with
  | false => rfl
  | true =>
    exfalso
    simp only [isUnsafeChar, Bool.or_eq_true, beq_iff_eq] at hu
    rcases hu with ((((((((rfl | rfl) | rfl) | rfl) | rfl) | rfl) | rfl) | rfl) | rfl) <;>
      revert h <;> decide

theorem safe_name_chars_ok (s : String) :
    ∀ c ∈ (safe_name s).data, isUnsafeChar c = false := by
  intro c hc
  have h1 : c ∈ stripChars (collapseWsAux false (subUnsafeAux false s.data)) :=
    List.take_subset 160 _ hc
  have h2 := mem_stripChars h1
  exact mem_collapseWsAux false _ (fun x hx => mem_subUnsafeAux false s.data hx) h2

theorem extractVid_core (xs : List Char) (v : String) (h : '[' ∉ v.data) :
    extractVid (String.mk (xs ++ '[' :: (v.data ++ [']']))) = v := by
  unfold extractVid
  have hrev : (xs ++ '[' :: (v.data ++ [']'])).reverse =
      (']' :: v.data.reverse) ++ '[' :: xs.reverse := by
    simp [List.reverse_append, List.reverse_cons]
  rw [hrev]
  rw [takeWhile_append_of (']' :: v.data.reverse) '[' xs.reverse
    (by
      intro a ha
      rcases List.mem_cons.mp ha with rfl | ha
      · decide
      · have : a ∈ v.data := List.mem_reverse.mp ha
        simp only [decide_eq_true_eq]
        intro heq
        exact h (heq ▸ this))
    (by decide)]
  rw [List.reverse_cons, List.reverse_reverse, List.dropLast_concat]

/-- C8: for every title, the sanitized `safe_name` contains none of the
path-unsafe characters `/ \ : * ? " < > |` and is truncated to at most
160 characters; the per-item folder name appends the item id suffix
`[vid]` after sanitization and truncation, so the id is preserved without
loss and is recovered exactly by the fill passes' extraction; the inline
sanitizer of `fetch_transcripts.py` likewise yields no unsafe characters,
its title part is truncated to at most 80 characters, and the id sits
intact between the final `_` and `.txt`. -/
theorem claim8_filename_safety (s date title vid pub : String) :
    (∀ c ∈ (safe_name s).data, isUnsafeChar c = false) ∧
    (safe_name s).data.length ≤ 160 ∧
    (folder_name date title vid).data =
      ((if date ≠ "" then date ++ " - " else "") ++ safe_name title ++ " [").data ++
        (vid.data ++ [']']) ∧
    ('[' ∉ vid.data → extractVid (folder_name date title vid) = vid) ∧
    (∀ c ∈ (ep_safe s).data, isUnsafeChar c = false) ∧
    (ep_name pub title vid).data =
      (pub ++ "_" ++ String.mk ((ep_safe title).data.take 80) ++ "_").data ++
        (vid.data ++ ('.' :: 't' :: 'x' :: 't' :: [])) ∧
    ((ep_safe title).data.take 80).length ≤ 80 := by
  have hfold : (folder_name date title vid).data =
      ((if date ≠ "" then date ++ " - " else "") ++ safe_name title ++ " [").data ++
        (vid.data ++ [']']) := by
    unfold folder_name
    simp [data_append, List.append_assoc]
  refine ⟨safe_name_chars_ok s, ?_, hfold, ?_, ?_, ?_, ?_⟩
  · show (List.take 160 _).length ≤ 160
    rw [List.length_take]
    exact min_le_left _ _
  · intro hv
    have hdecomp : (folder_name date title vid).data =
        (((if date ≠ "" then date ++ " - " else "") ++ safe_name title).data ++ [' ']) ++
          '[' :: (vid.data ++ [']']) := by
      rw [hfold]
      simp [data_append, List.append_assoc]
    have : extractVid (String.mk ((folder_name date title vid).data)) = vid := by
      rw [hdecomp]
      exact extractVid_core _ vid hv
    simpa using this
  · intro c hc
    have h1 : c ∈ (s.data.filter keepEpChar).reverse := mem_dropWhile (by
      have := List.mem_reverse.mp hc
      exact this)
    have h2 : c ∈ s.data.filter keepEpChar := List.mem_reverse.mp h1
    exact keepEp_char_ok c (List.of_mem_filter h2)
  · unfold ep_name
    simp [data_append, List.append_assoc]
  · rw [List.length_take]
    exact min_le_left _ _

/-- Witness for C8 at a concrete unsafe title and id. -/
theorem claim8_filename_safety_witness :
    '[' ∉ ("abc123" : String).data ∧
    extractVid (folder_name "2020-01-01" "A/B: C?" "abc123") = "abc123" := by
  refine ⟨by decide, ?_⟩
  exact (claim8_filename_safety "A/B: C?" "2020-01-01" "A/B: C?" "abc123" "p").2.2.2.1
    (by decide)

/-! ## C9: the `[mm:ss]` marker -/

theorem decDigitsAux_small (fuel n : Nat) (h : n < 10) :
    decDigitsAux fuel n = [Nat.digitChar n] := by
  cases fuel with
  | zero => rfl
  | succ f => simp [decDigitsAux, h]

theorem decDigitsAux_len_pos (fuel : Nat) : ∀ n, 1 ≤ (decDigitsAux fuel n).length := by
  induction fuel with
  | zero => intro n; simp [decDigitsAux]
  | succ f ih =>
    intro n
    by_cases h : n < 10
    · simp [decDigitsAux, h]
    · simp only [decDigitsAux, h, if_false, List.length_append, List.length_cons,
        List.length_nil]
      omega

theorem decDigits_len_of_lt_100 (n : Nat) (h10 : 10 ≤ n) (h100 : n < 100) :
    (decDigits n).length = 2 := by
  obtain ⟨m, rfl⟩ : ∃ m, n = m + 1 := ⟨n - 1, by omega⟩
  unfold decDigits
  rw [show decDigitsAux (m + 1) (m + 1) =
      decDigitsAux m ((m + 1) / 10) ++ [Nat.digitChar ((m + 1) % 10)] from by
    simp [decDigitsAux, show ¬(m + 1 < 10) by omega]]
  rw [decDigitsAux_small m ((m + 1) / 10) (by omega)]
  rfl

theorem two_le_decDigits (n : Nat) (h : 10 ≤ n) : 2 ≤ (decDigits n).length := by
  obtain ⟨m, rfl⟩ : ∃ m, n = m + 1 := ⟨n - 1, by omega⟩
  unfold decDigits
  rw [show decDigitsAux (m + 1) (m + 1) =
      decDigitsAux m ((m + 1) / 10) ++ [Nat.digitChar ((m + 1) % 10)] from by
    simp [decDigitsAux, show ¬(m + 1 < 10) by omega]]
  have := decDigitsAux_len_pos m ((m + 1) / 10)
  simp only [List.length_append, List.length_cons, List.length_nil]
  omega

theorem pad2_len_eq_two_of_lt_100 (k : Nat) (h : k < 100) : (pad2 k).length = 2 := by
  by_cases hk : k < 10
  · show (if k < 10 then "0" ++ decRepr k else decRepr k).length = 2
    rw [if_pos hk]
    show ('0' :: (decDigits k)).length = 2
    rw [List.length_cons, decDigits, decDigitsAux_small k k hk]
    rfl
  · show (if k < 10 then "0" ++ decRepr k else decRepr k).length = 2
    rw [if_neg hk]
    exact decDigits_len_of_lt_100 k (by omega) h

theorem two_le_pad2 (k : Nat) : 2 ≤ (pad2 k).length := by
  by_cases hk : k < 10
  · rw [pad2_len_eq_two_of_lt_100 k (by omega)]
  · have hp : pad2 k = decRepr k := by simp [pad2, hk]
    rw [hp]
    show 2 ≤ (decDigits k).length
    exact two_le_decDigits k (by omega)

/-- C9 (corrected): every emitted line is one line per fragment/segment,
prefixed by the `[mm:ss]` marker with `mm = s / 60` and `ss = s % 60`
rendered by `%02d`, i.e. zero-padded to a MINIMUM of two digits — the
seconds field is always exactly two digits, and the minutes field is
exactly two digits only while `s < 6000` (100 minutes); beyond that it
grows to three or more digits.  The caption path and the whisper path use
the same marker function, so the format is consistent across the lines of
one output. -/
theorem claim9_marker_format (chunks segs : List (Nat × String)) (s : Nat) :
    chunkLines chunks = chunks.map (fun c => timeMarker c.1 ++ " " ++ c.2) ∧
    whisperLines segs = segs.map (fun c => timeMarker c.1 ++ " " ++ stripS c.2) ∧
    timeMarker s = "[" ++ pad2 (s / 60) ++ ":" ++ pad2 (s % 60) ++ "]" ∧
    (pad2 (s % 60)).length = 2 ∧
    2 ≤ (pad2 (s / 60)).length ∧
    (s < 6000 → (pad2 (s / 60)).length = 2) := by
  refine ⟨rfl, rfl, rfl, ?_, ?_, ?_⟩
  · exact pad2_len_eq_two_of_lt_100 (s % 60) (by omega)
  · exact two_le_pad2 (s / 60)
  · intro h
    exact pad2_len_eq_two_of_lt_100 (s / 60) (by omega)

/-- Counterexample to C9 as stated: at start offset 6000 s (100 minutes)
the emitted line is `[100:00] hi` — the minutes field is three digits,
not "two zero-padded digits". -/
theorem claim9_marker_format_counterexample :
    chunks_to_text [(6000, "hi")] = "[100:00] hi" ∧ (pad2 (6000 / 60)).length ≠ 2 := by
  constructor
  · decide
  · decide

/-- Witness for C9 at a concrete in-range start offset. -/
theorem claim9_marker_format_witness :
    (3601 : Nat) < 6000 ∧ (pad2 (3601 / 60)).length = 2 := by
  refine ⟨by decide, ?_⟩
  exact (claim9_marker_format [] [] 3601).2.2.2.2.2 (by decide)

/-! ## C10: `get_transcript_text` is total and collapses all failures -/

/-- C10: `get_transcript_text` of `fetch_transcripts.py` is a total
function of the API outcome; every failure — transcripts disabled, no
transcript found, video unavailable, or any other exception — yields the
empty string, so an errored condition is indistinguishable from an absent
transcript at this interface, and downstream the per-episode section
records `(No transcript available)` and `index.json` records
`has_transcript = false` for both cases. -/
theorem claim10_total_empty_on_failure (o : ApiOutcome) (title url pub msg : String) :
    (isFailureOutcome o = true →
      get_transcript_text o = "" ∧
      episodeSection title url pub (get_transcript_text o) =
        "### " ++ title ++ "\nURL: " ++ url ++ "\nDate: " ++ pub ++
          "\n\n(No transcript available)\n\n" ∧
      hasTranscriptFlag (get_transcript_text o) = false) ∧
    get_transcript_text (ApiOutcome.otherExc msg) = get_transcript_text ApiOutcome.notFound := by
  constructor
  · intro hf
    have he : get_transcript_text o = "" := by
      cases o with
      | ok chunks => simp [isFailureOutcome] at hf
      | disabled => rfl
      | notFound => rfl
      | unavailable => rfl
      | otherExc m => rfl
    refine ⟨he, ?_, ?_⟩
    · rw [he]
      simp [episodeSection]
    · rw [he]
      decide
  · rfl

/-- Witness for C10 at the generic-exception outcome. -/
theorem claim10_total_empty_on_failure_witness :
    get_transcript_text (ApiOutcome.otherExc "socket timeout") = "" ∧
    hasTranscriptFlag (get_transcript_text (ApiOutcome.otherExc "socket timeout")) = false := by
  have h := (claim10_total_empty_on_failure (ApiOutcome.otherExc "socket timeout")
    "t" "u" "p" "socket timeout").1 (by rfl)
  exact ⟨h.1, h.2.2⟩

/-! ## C2: resolved items are never overwritten; the fill pass upgrades
marker-only items -/

/-- C2: for the caption-fetch pass and the yt-dlp fill pass, an item
whose `transcript.txt` exists is left entirely unchanged (Resolved is
never un-resolved, existing output never overwritten); and when only the
`NO_TRANSCRIPT.txt` marker exists and the fill pass obtains non-blank
transcript text from a produced VTT, it writes `transcript.txt` and
removes the marker (NoSourceTranscript transitions to Resolved). -/
theorem claim2_idempotent_upgrade (o : Outcome) (m : String) (st : ItemState)
    (vtt : Option (List String)) (L : List String) :
    (st.transcript.isSome = true → entryStep o m st = st ∧ fillStep vtt st = st) ∧
    (st.transcript = none → st.marker.isSome = true → stripS (vtt_to_txt L) ≠ "" →
      fillStep (some L) st =
        { st with transcript := some (vtt_to_txt L), marker := none }) := by
  constructor
  · intro h
    constructor
    · simp [entryStep, h]
    · simp [fillStep, h]
  · intro ht hm hne
    have hsome : st.transcript.isSome = false := by rw [ht]; rfl
    have hnone : st.marker.isNone = false := by
      cases hmk : st.marker with
      | none => rw [hmk] at hm; simp at hm
      | some x => rfl
    have hbeq : (stripS (vtt_to_txt L) == "") = false := by
      rw [beq_eq_false_iff_ne]
      exact hne
    simp [fillStep, hsome, hnone, hbeq]

/-- Witness for C2: a resolved item is untouched by both passes; a
marker-only item is upgraded by a non-blank VTT conversion. -/
theorem claim2_idempotent_upgrade_witness :
    entryStep (Outcome.err "boom") "meta" (ItemState.mk (some "t") none none none) =
      ItemState.mk (some "t") none none none ∧
    fillStep (some ["new text"]) (ItemState.mk (some "t") none none none) =
      ItemState.mk (some "t") none none none ∧
    fillStep (some ["new text"]) (ItemState.mk none (some "nc") none none) =
      ItemState.mk (some "new text") none none none := by
  refine ⟨?_, ?_, ?_⟩
  · exact ((claim2_idempotent_upgrade (Outcome.err "boom") "meta"
      (ItemState.mk (some "t") none none none) (some ["new text"]) ["new text"]).1 rfl).1
  · exact ((claim2_idempotent_upgrade (Outcome.err "boom") "meta"
      (ItemState.mk (some "t") none none none) (some ["new text"]) ["new text"]).1 rfl).2
  · have h := (claim2_idempotent_upgrade (Outcome.err "boom") "meta"
      (ItemState.mk none (some "nc") none none) (some ["new text"]) ["new text"]).2
      rfl rfl (by decide)
    rw [h]
    decide

/-! ## C1 and C4: the resolver's candidate chain -/

theorem firstContent_append (a b : List (SourceTag × Attempt)) :
    firstContent (a ++ b) =
      match firstContent a with
      | some r => some r
      | none => firstContent b := by
  induction a with
  | nil => rfl
  | cons p rest ih =>
    obtain ⟨t, att⟩ := p
    cases att <;> simp [firstContent, ih]

theorem firstContent_map_tag (t : SourceTag) (f : String → Attempt) (ls : List String) :
    firstContent (ls.map (fun l => (t, f l))) =
      (firstFoundA (ls.map f)).map (fun c => (t, c)) := by
  induction ls with
  | nil => rfl
  | cons l rest ih =>
    cases hf : f l <;> simp [firstContent, firstFoundA, hf, ih]

theorem firstContent_tagged (t : SourceTag) (xs : List Attempt) :
    firstContent (xs.map (fun a => (t, a))) =
      (firstFoundA xs).map (fun c => (t, c)) := by
  induction xs with
  | nil => rfl
  | cons a rest ih =>
    cases a <;> simp [firstContent, firstFoundA, ih]

theorem firstFoundA_eq_none (xs : List Attempt) :
    firstFoundA xs = none ↔ ∀ a ∈ xs, isFound a = false := by
  induction xs with
  | nil => simp [firstFoundA]
  | cons a rest ih =>
    cases a <;> simp [firstFoundA, isFound, ih]

theorem fetch_eq_firstContent (tl : TranscriptListing) (langs : List String) :
    fetch_transcript_chunks (ListingResult.ok tl) langs =
      match firstContent (candidates tl langs) with
      | some r => Except.ok r
      | none => Except.error (FetchErr.notFound noTranscriptMsg) := by
  unfold candidates
  rw [firstContent_append, firstContent_append, firstContent_map_tag,
    firstContent_map_tag, firstContent_tagged]
  simp only [fetch_transcript_chunks]
  cases h1 : firstFoundA (langs.map tl.manual) with
  | some c => simp [h1]
  | none =>
    cases h2 : firstFoundA (langs.map tl.generated) with
    | some c => simp [h1, h2]
    | none =>
      cases h3 : firstFoundA (translatedAttempts tl) with
      | some c => simp [h1, h2, h3]
      | none => simp [h1, h2, h3]

theorem firstContent_eq_none (xs : List (SourceTag × Attempt)) :
    firstContent xs = none ↔ ∀ p ∈ xs, isFound p.2 = false := by
  induction xs with
  | nil => simp [firstContent]
  | cons p rest ih =>
    obtain ⟨t, att⟩ := p
    cases att <;> simp [firstContent, isFound, ih]

theorem entryStep_ok_isSome (ch : List (Nat × String)) (m : String) (st : ItemState) :
    ((entryStep (Outcome.ok ch) m st).transcript).isSome = true := by
  unfold entryStep
  by_cases h : st.transcript.isSome = true <;> simp [h]

/-- C1: the resolver of `fetch_youtube_transcripts.py` tries the
candidate sources in the fixed priority order manual captions (per
preferred language, first match wins), then auto captions (same
languages), then translated-to-English captions from any translatable
track; it returns the first candidate that yields content, one
candidate's miss merely advances the chain, and `NoTranscriptFound` is
raised exactly when every candidate fails to yield content.  In
particular, when only the translated source has content, that content is
returned tagged `translated`, and the downloader-caption fill pass is
never invoked for the item (the driver writes `transcript.txt`, so the
fill pass's skip check fires before its yt-dlp call). -/
theorem claim1_resolver_priority (tl : TranscriptListing) (langs : List String)
    (st : ItemState) (vtt : Option (List String)) (m : String) :
    (fetch_transcript_chunks (ListingResult.ok tl) langs =
      match firstContent (candidates tl langs) with
      | some r => Except.ok r
      | none => Except.error (FetchErr.notFound noTranscriptMsg)) ∧
    (fetch_transcript_chunks (ListingResult.ok tl) langs =
        Except.error (FetchErr.notFound noTranscriptMsg) ↔
      ∀ p ∈ candidates tl langs, isFound p.2 = false) ∧
    ((∀ l ∈ langs, isFound (tl.manual l) = false) →
     (∀ l ∈ langs, isFound (tl.generated l) = false) →
     ∀ c, firstFoundA (translatedAttempts tl) = some c →
      fetch_transcript_chunks (ListingResult.ok tl) langs =
        Except.ok (SourceTag.translated, c) ∧
      (fillStepTraced vtt (entryStep
        (driverOutcome (fetch_transcript_chunks (ListingResult.ok tl) langs)) m st)).2 =
        false) := by
  refine ⟨fetch_eq_firstContent tl langs, ?_, ?_⟩
  · rw [fetch_eq_firstContent tl langs]
    constructor
    · intro h
      cases hfc : firstContent (candidates tl langs) with
      | none => exact (firstContent_eq_none _).mp hfc
      | some r => rw [hfc] at h; simp at h
    · intro h
      rw [(firstContent_eq_none _).mpr h]
  · intro hman hgen c htr
    have hm : firstFoundA (langs.map tl.manual) = none := by
      rw [firstFoundA_eq_none]
      intro a ha
      obtain ⟨l, hl, rfl⟩ := List.mem_map.mp ha
      exact hman l hl
    have hg : firstFoundA (langs.map tl.generated) = none := by
      rw [firstFoundA_eq_none]
      intro a ha
      obtain ⟨l, hl, rfl⟩ := List.mem_map.mp ha
      exact hgen l hl
    have hres : fetch_transcript_chunks (ListingResult.ok tl) langs =
        Except.ok (SourceTag.translated, c) := by
      simp only [fetch_transcript_chunks]
      rw [hm, hg, htr]
    refine ⟨hres, ?_⟩
    rw [hres]
    unfold fillStepTraced
    rw [show driverOutcome (Except.ok (SourceTag.translated, c)) = Outcome.ok c from rfl]
    rw [entryStep_ok_isSome]
    rfl

/-- Witness for C1: a listing in which only a translatable track has
content yields the translated result, and no downloader-caption call
happens for the item afterwards. -/
theorem claim1_resolver_priority_witness :
    fetch_transcript_chunks
        (ListingResult.ok
          (TranscriptListing.mk (fun _ => Attempt.miss) (fun _ => Attempt.miss)
            [CaptionTrack.mk true (Attempt.found [(0, "hola")])]))
        ["en", "en-US"] =
      Except.ok (SourceTag.translated, [(0, "hola")]) ∧
    (fillStepTraced none (entryStep
      (driverOutcome (fetch_transcript_chunks
        (ListingResult.ok
          (TranscriptListing.mk (fun _ => Attempt.miss) (fun _ => Attempt.miss)
            [CaptionTrack.mk true (Attempt.found [(0, "hola")])]))
        ["en", "en-US"])) "meta" emptyItem)).2 = false := by
  exact (claim1_resolver_priority
    (TranscriptListing.mk (fun _ => Attempt.miss) (fun _ => Attempt.miss)
      [CaptionTrack.mk true (Attempt.found [(0, "hola")])])
    ["en", "en-US"] emptyItem none "meta").2.2
    (by intro l _; rfl) (by intro l _; rfl) [(0, "hola")] rfl

/-! ## C4: candidate-level hard errors are swallowed, not surfaced -/

theorem firstFoundA_erase (xs : List Attempt) :
    firstFoundA (xs.map eraseErr) = firstFoundA xs := by
  induction xs with
  | nil => rfl
  | cons a rest ih =>
    cases a <;> simp [firstFoundA, eraseErr, ih]

theorem translatedAttempts_erase (tl : TranscriptListing) :
    translatedAttempts (eraseErrListing tl) = (translatedAttempts tl).map eraseErr := by
  show ((tl.tracks.map _).filter _).map _ = _
  unfold translatedAttempts
  induction tl.tracks with
  | nil => rfl
  | cons t rest ih =>
    cases ht : t.is_translatable <;>
      simp only [List.map_cons, List.filter_cons, ht, if_true, if_false,
        Bool.false_eq_true] <;> simp [ht, ih]

/-- Counterexample to C4 as stated: with a hard network error on the
manual-caption candidate and content on the auto-caption candidate, the
resolver advances past the error and returns the auto content — the
error is not surfaced as Errored. -/
theorem claim4_soft_error_counterexample :
    fetch_transcript_chunks
        (ListingResult.ok
          (TranscriptListing.mk (fun _ => Attempt.err "network error")
            (fun _ => Attempt.found [(0, "x")]) []))
        ["en"] =
      Except.ok (SourceTag.auto, [(0, "x")]) ∧
    fetch_transcript_chunks
        (ListingResult.ok
          (TranscriptListing.mk (fun _ => Attempt.err "network error")
            (fun _ => Attempt.found [(0, "x")]) []))
        ["en"] ≠
      Except.error (FetchErr.raisedExc (PyExc.otherExc "network error")) := by
  exact ⟨rfl, fun h => nomatch h⟩

/-- C4 (corrected): only a failure of the `list_transcripts` call itself
propagates out of the resolver (and the driver then records it as
Errored); a failure of an individual candidate attempt — network error
included — is swallowed by the bare `except: pass` exactly like a soft
miss: replacing every candidate-level hard error by a soft miss leaves
the resolver's result unchanged. -/
theorem claim4_error_surfacing (tl : TranscriptListing) (langs : List String)
    (e : PyExc) (m mt : String) (st : ItemState) :
    fetch_transcript_chunks (ListingResult.raised e) langs =
      Except.error (FetchErr.raisedExc e) ∧
    fetch_transcript_chunks (ListingResult.ok (eraseErrListing tl)) langs =
      fetch_transcript_chunks (ListingResult.ok tl) langs ∧
    driverOutcome (Except.error (FetchErr.raisedExc (PyExc.otherExc m))) =
      Outcome.err m ∧
    (st.transcript.isSome = false →
      entryStep (Outcome.err m) mt st = { st with errorFile := some m }) := by
  refine ⟨rfl, ?_, rfl, ?_⟩
  · simp only [fetch_transcript_chunks]
    rw [show langs.map (eraseErrListing tl).manual = (langs.map tl.manual).map eraseErr from by
        simp [eraseErrListing, List.map_map, Function.comp],
      show langs.map (eraseErrListing tl).generated =
          (langs.map tl.generated).map eraseErr from by
        simp [eraseErrListing, List.map_map, Function.comp],
      translatedAttempts_erase, firstFoundA_erase, firstFoundA_erase, firstFoundA_erase]
  · intro h
    simp [entryStep, h]

/-- Witness for C4 at a concrete unresolved item state. -/
theorem claim4_error_surfacing_witness :
    (emptyItem.transcript).isSome = false ∧
    entryStep (Outcome.err "quota exceeded") "meta" emptyItem =
      ItemState.mk none none (some "quota exceeded") none := by
  refine ⟨rfl, ?_⟩
  have h := (claim4_error_surfacing
    (TranscriptListing.mk (fun _ => Attempt.miss) (fun _ => Attempt.miss) [])
    [] (PyExc.otherExc "q") "quota exceeded" "meta" emptyItem).2.2.2 rfl
  rw [h]
  rfl

/-! ## C3: rerunning the caption-fetch pass -/

theorem updateStore_self (s : Store) (id : String) (e : ItemState) :
    updateStore s id e id = e := by
  simp [updateStore]

theorem updateStore_other (s : Store) (id : String) (e : ItemState) (j : String)
    (h : j ≠ id) : updateStore s id e j = s j := by
  simp [updateStore, h]

theorem runStore_not_mem (or : String → Outcome) :
    ∀ (vs : List Video) (s : Store) (j : String),
      j ∉ vs.map Video.id → runStore or vs s j = s j := by
  intro vs
  induction vs with
  | nil => intro s j _; rfl
  | cons v vs ih =>
    intro s j hj
    rw [List.map_cons, List.mem_cons] at hj
    push_neg at hj
    rw [runStore, ih _ _ hj.2]
    exact updateStore_other _ _ _ _ hj.1

theorem runStore_mem (or : String → Outcome) :
    ∀ (vs : List Video) (s : Store) (v : Video),
      (vs.map Video.id).Nodup → v ∈ vs →
      runStore or vs s v.id = entryStep (or v.id) (metaOf v) (s v.id) := by
  intro vs
  induction vs with
  | nil => intro s v _ hm; cases hm
  | cons w ws ih =>
    intro s v hnd hm
    rw [List.map_cons, List.nodup_cons] at hnd
    rcases List.mem_cons.mp hm with rfl | hmem
    · rw [runStore, runStore_not_mem or ws _ _ hnd.1]
      exact updateStore_self _ _ _
    · have hne : v.id ≠ w.id := by
        intro he
        exact hnd.1 (he ▸ List.mem_map_of_mem Video.id hmem)
      rw [runStore, ih _ _ hnd.2 hmem]
      rw [show stepStore or w s v.id = s v.id from updateStore_other _ _ _ _ hne]

theorem entryStep_idem (o : Outcome) (m : String) (e : ItemState) :
    entryStep o m (entryStep o m e) = entryStep o m e := by
  obtain ⟨t, mk, ef, mt⟩ := e
  by_cases h : t.isSome = true
  · simp [entryStep, h]
  · have h' : t.isSome = false := by rw [Bool.eq_false_iff]; simpa using h
    cases o with
    | ok ch => simp [entryStep, h']
    | noCaptions msg => simp [entryStep, h']
    | err msg => simp [entryStep, h']

theorem runStore_idem (or : String → Outcome) (vs : List Video) (s : Store)
    (hnd : (vs.map Video.id).Nodup) :
    runStore or vs (runStore or vs s) = runStore or vs s := by
  funext j
  by_cases hj : j ∈ vs.map Video.id
  · obtain ⟨v, hv, rfl⟩ := List.mem_map.mp hj
    rw [runStore_mem or vs _ v hnd hv, runStore_mem or vs s v hnd hv, entryStep_idem]
  · rw [runStore_not_mem or vs _ j hj]

theorem runCalls_congr (or : String → Outcome) :
    ∀ (vs : List Video) (s s' : Store),
      (∀ v ∈ vs, s v.id = s' v.id) → runCalls or vs s = runCalls or vs s' := by
  intro vs
  induction vs with
  | nil => intro s s' _; rfl
  | cons w ws ih =>
    intro s s' h
    rw [runCalls, runCalls, h w (List.mem_cons_self w ws)]
    congr 1
    apply ih
    intro v hv
    show updateStore s w.id _ v.id = updateStore s' w.id _ v.id
    by_cases he : v.id = w.id
    · rw [he, updateStore_self, updateStore_self, h w (List.mem_cons_self w ws)]
    · rw [updateStore_other _ _ _ _ he, updateStore_other _ _ _ _ he]
      exact h v (List.mem_cons_of_mem w hv)

theorem runCalls_nodup (or : String → Outcome) :
    ∀ (vs : List Video) (s : Store), (vs.map Video.id).Nodup →
      runCalls or vs s = vs.countP (fun v => (s v.id).transcript.isNone) := by
  intro vs
  induction vs with
  | nil => intro s _; rfl
  | cons w ws ih =>
    intro s hnd
    rw [List.map_cons, List.nodup_cons] at hnd
    have hcong : runCalls or ws (stepStore or w s) = runCalls or ws s := by
      apply runCalls_congr
      intro v hv
      apply updateStore_other
      intro he
      exact hnd.1 (he ▸ List.mem_map_of_mem Video.id hv)
    rw [runCalls, hcong, ih s hnd.2, List.countP_cons]
    cases htr : (s w.id).transcript <;> simp [htr, Nat.add_comm]

/-- Counterexample to C3 as stated: one video with an available
transcript; the second run reproduces the same store but still makes a
network call (the source-listing call is made before any per-item check),
so "zero new network calls on the second run" is false. -/
theorem claim3_idempotence_counterexample :
    ¬ ((runPass (fun _ => Outcome.ok [(0, "hi")]) [Video.mk "a" "t" "" "u"]
        ((runPass (fun _ => Outcome.ok [(0, "hi")]) [Video.mk "a" "t" "" "u"]
          emptyStore).1)).2 = 0) := by
  decide

/-- C3 (corrected): with unchanged source data (same oracle) and distinct
video ids, a second pass reproduces exactly the per-item Ingestion Store
state of the first pass (directories, transcript files, markers,
metadata); items whose `transcript.txt` exists are settled by the
existence check before any per-item external call, so the second pass
makes zero per-item fetches for them — but it still makes the
source-listing call, and one fetch per item that has only a marker or an
error file, so its network-call count is `1 +` the number of items
without `transcript.txt`, not zero. -/
theorem claim3_second_run (or : String → Outcome) (vs : List Video) (s : Store)
    (hnd : (vs.map Video.id).Nodup) :
    (runPass or vs (runPass or vs s).1).1 = (runPass or vs s).1 ∧
    (runPass or vs (runPass or vs s).1).2 =
      1 + vs.countP (fun v => ((runPass or vs s).1 v.id).transcript.isNone) := by
  constructor
  · show runStore or vs (runStore or vs s) = runStore or vs s
    exact runStore_idem or vs s hnd
  · show 1 + runCalls or vs (runStore or vs s) = 1 + _
    rw [runCalls_nodup or vs _ hnd]
    rfl

/-- Witness for C3 at a concrete two-item run (one resolved, one
marker-only). -/
theorem claim3_second_run_witness :
    ([Video.mk "a" "t" "" "u", Video.mk "b" "t2" "" "u2"].map Video.id).Nodup ∧
    ((runPass (fun i => if i = "a" then Outcome.ok [(0, "hi")] else Outcome.noCaptions "n")
        [Video.mk "a" "t" "" "u", Video.mk "b" "t2" "" "u2"]
        ((runPass (fun i => if i = "a" then Outcome.ok [(0, "hi")] else Outcome.noCaptions "n")
          [Video.mk "a" "t" "" "u", Video.mk "b" "t2" "" "u2"] emptyStore).1)).1 =
      (runPass (fun i => if i = "a" then Outcome.ok [(0, "hi")] else Outcome.noCaptions "n")
        [Video.mk "a" "t" "" "u", Video.mk "b" "t2" "" "u2"] emptyStore).1 ∧
    (runPass (fun i => if i = "a" then Outcome.ok [(0, "hi")] else Outcome.noCaptions "n")
        [Video.mk "a" "t" "" "u", Video.mk "b" "t2" "" "u2"]
        ((runPass (fun i => if i = "a" then Outcome.ok [(0, "hi")] else Outcome.noCaptions "n")
          [Video.mk "a" "t" "" "u", Video.mk "b" "t2" "" "u2"] emptyStore).1)).2 =
      1 + ([Video.mk "a" "t" "" "u", Video.mk "b" "t2" "" "u2"].countP
        (fun v => (((runPass (fun i => if i = "a" then Outcome.ok [(0, "hi")] else Outcome.noCaptions "n")
          [Video.mk "a" "t" "" "u", Video.mk "b" "t2" "" "u2"] emptyStore).1 v.id).transcript).isNone))) := by
  refine ⟨by decide, ?_⟩
  exact claim3_second_run
    (fun i => if i = "a" then Outcome.ok [(0, "hi")] else Outcome.noCaptions "n")
    [Video.mk "a" "t" "" "u", Video.mk "b" "t2" "" "u2"] emptyStore (by decide)

/-! ## C5: per-item failure isolation -/

/-- Counterexample to C5 as stated: in `whisper_fill_missing.py` the
audio download uses `run(cmd)`, which raises `SystemExit` on failure and
is not caught inside the loop; with two items and a download failure on
the first, only one item is reached and the run aborts — not all n items
are attempted. -/
theorem claim5_failure_isolation_counterexample :
    (whisperFillRun (WOracle.mk (fun v => v ≠ "a") (fun _ => Except.ok "t"))
      ["a", "b"]).outcomes.length = 1 ∧
    (whisperFillRun (WOracle.mk (fun v => v ≠ "a") (fun _ => Except.ok "t"))
      ["a", "b"]).aborted = true ∧
    ¬ ((whisperFillRun (WOracle.mk (fun v => v ≠ "a") (fun _ => Except.ok "t"))
      ["a", "b"]).outcomes.length = 2) := by
  refine ⟨by decide, by decide, by decide⟩

/-- C5 (corrected): in `fetch_and_transcribe_youtube.py` every per-item
failure mode (empty API text, audio-download failure, whisper exception)
is handled inside the loop body, so all n items are always visited; in
`whisper_fill_missing.py` a transcription failure is likewise caught at
the item boundary (`ERROR.txt`) and iteration continues over all items —
but only as long as every audio download succeeds, because a download
failure raises `SystemExit` and aborts the run. -/
theorem claim5_failure_isolation (or : FOracle) (items : List (String × Bool))
    (wor : WOracle) (ids : List String) :
    (fatRun or items).length = items.length ∧
    ((∀ i ∈ ids, wor.downloadOk i = true) →
      (whisperFillRun wor ids).outcomes.length = ids.length ∧
      (whisperFillRun wor ids).aborted = false) := by
  refine ⟨by simp [fatRun], ?_⟩
  induction ids with
  | nil => intro _; exact ⟨rfl, rfl⟩
  | cons v rest ih =>
    intro h
    have hv : wor.downloadOk v = true := h v (List.mem_cons_self v rest)
    have ihh := ih (fun i hi => h i (List.mem_cons_of_mem v hi))
    rw [whisperFillRun]
    rw [if_pos (by rw [hv])]
    cases wor.transcribe v with
    | ok t => exact ⟨by simp [ihh.1], by simp [ihh.2]⟩
    | error e => exact ⟨by simp [ihh.1], by simp [ihh.2]⟩

/-- Witness for C5: with all downloads succeeding and a transcription
failure on the first of two items, both items are still attempted and the
run completes. -/
theorem claim5_failure_isolation_witness :
    (∀ i ∈ (["a", "b"] : List String),
      (WOracle.mk (fun _ => true)
        (fun v => if v = "a" then Except.error "model crash" else Except.ok "t")).downloadOk i =
        true) ∧
    (whisperFillRun
        (WOracle.mk (fun _ => true)
          (fun v => if v = "a" then Except.error "model crash" else Except.ok "t"))
        ["a", "b"]).outcomes.length = (["a", "b"] : List String).length ∧
    (whisperFillRun
        (WOracle.mk (fun _ => true)
          (fun v => if v = "a" then Except.error "model crash" else Except.ok "t"))
        ["a", "b"]).aborted = false := by
  refine ⟨by decide, ?_⟩
  exact (claim5_failure_isolation
    (FOracle.mk (fun _ => "") (fun _ => true) (fun _ => Except.ok "")) []
    (WOracle.mk (fun _ => true)
      (fun v => if v = "a" then Except.error "model crash" else Except.ok "t"))
    ["a", "b"]).2 (by decide)

/-! ## C6: model loading -/

theorem rssRunAux_loaded (sk : Bool) (or : RssOracle) :
    ∀ eps, (rssRunAux sk or true eps).1 = 0 := by
  intro eps
  induction eps with
  | nil => rfl
  | cons e rest ih =>
    by_cases h1 : (sk && or.existing e.slug) = true
    · simp only [rssRunAux, h1, if_true]
      exact ih
    · have h1' : (sk && or.existing e.slug) = false := by
        rw [Bool.eq_false_iff]; simpa using h1
      by_cases h2 : or.downloadOk e.slug = true
      · simp only [rssRunAux, h1', Bool.false_eq_true, if_false, h2, if_true]
        exact ih
      · have h2' : or.downloadOk e.slug = false := by
          rw [Bool.eq_false_iff]; simpa using h2
        simp [rssRunAux, h1', h2']

theorem rssRun_loads_eq (sk : Bool) (or : RssOracle) :
    ∀ eps, (rssRun sk or eps).1 =
      match (eps.filter (rssNeedsModel sk or.existing)).head? with
      | none => 0
      | some e => if or.downloadOk e.slug then 1 else 0 := by
  intro eps
  unfold rssRun
  induction eps with
  | nil => rfl
  | cons e rest ih =>
    by_cases h1 : (sk && or.existing e.slug) = true
    · have hn : rssNeedsModel sk or.existing e = false := by
        unfold rssNeedsModel
        rw [h1]
        rfl
      simp only [rssRunAux, h1, if_true, List.filter_cons, hn, Bool.false_eq_true,
        if_false]
      exact ih
    · have h1' : (sk && or.existing e.slug) = false := by
        rw [Bool.eq_false_iff]; simpa using h1
      have hn : rssNeedsModel sk or.existing e = true := by
        unfold rssNeedsModel
        rw [h1']
        rfl
      by_cases h2 : or.downloadOk e.slug = true
      · simp only [rssRunAux, h1', Bool.false_eq_true, if_false, h2, if_true,
          List.filter_cons, hn, List.head?_cons]
        rw [rssRunAux_loaded]
      · have h2' : or.downloadOk e.slug = false := by
          rw [Bool.eq_false_iff]; simpa using h2
        simp [rssRunAux, h1', h2', List.filter_cons, hn]

/-- Counterexample to C6 as stated: in `whisper_fill_missing.py` (and the
identical helper in `fetch_and_transcribe_youtube.py`),
`transcribe_with_faster_whisper` constructs `WhisperModel(...)` inside
the per-item call, so a run transcribing two items loads the model twice
— more than once per run. -/
theorem claim6_model_load_counterexample :
    (whisperFillRun (WOracle.mk (fun _ => true) (fun _ => Except.ok "t"))
      ["a", "b"]).loads = 2 ∧
    ¬ ((whisperFillRun (WOracle.mk (fun _ => true) (fun _ => Except.ok "t"))
      ["a", "b"]).loads ≤ 1) := by
  refine ⟨by decide, by decide⟩

/-- C6 (corrected): only `FeedTranscriber.transcribe` of `rss_whisper.py`
implements the lazy shared model: within one run the model is constructed
at most once — never when every episode is skipped, and otherwise exactly
when the first episode needing transcription downloads successfully; a
download failure aborts the run before its episode's load, so an aborted
run can even perform zero loads with unskipped episodes present.  The
YouTube whisper helpers instead construct a fresh model for every item
they transcribe: a whisper fill run over n downloadable items performs n
model loads. -/
theorem claim6_model_loading (sk : Bool) (or : RssOracle) (eps : List RssEpisode)
    (wor : WOracle) (ids : List String) :
    (rssRun sk or eps).1 =
      (match (eps.filter (rssNeedsModel sk or.existing)).head? with
       | none => 0
       | some e => if or.downloadOk e.slug then 1 else 0) ∧
    (rssRun sk or eps).1 ≤ 1 ∧
    (eps.filter (rssNeedsModel sk or.existing) = [] → (rssRun sk or eps).1 = 0) ∧
    ((∀ i ∈ ids, wor.downloadOk i = true) →
      (whisperFillRun wor ids).loads = ids.length) := by
  have h1 := rssRun_loads_eq sk or eps
  refine ⟨h1, ?_, ?_, ?_⟩
  · rw [h1]
    cases (eps.filter (rssNeedsModel sk or.existing)).head? with
    | none => simp
    | some e =>
      by_cases hd : or.downloadOk e.slug = true <;> simp [hd]
  · intro hf
    rw [h1, hf]
    rfl
  · induction ids with
    | nil => intro _; rfl
    | cons v rest ih =>
      intro h
      have hv : wor.downloadOk v = true := h v (List.mem_cons_self v rest)
      have ihh := ih (fun i hi => h i (List.mem_cons_of_mem v hi))
      rw [whisperFillRun, if_pos (by rw [hv])]
      cases wor.transcribe v with
      | ok t => simp [ihh]
      | error e => simp [ihh]

/-- Witness for C6: a run in which every episode is skipped performs zero
loads; a run whose first needed episode downloads performs exactly one;
a run whose first needed episode fails to download aborts with zero
loads; and the whisper fill helper loads once per item over two items. -/
theorem claim6_model_loading_witness :
    ([RssEpisode.mk "ep1"].filter (rssNeedsModel true (fun _ => true)) = []) ∧
    (rssRun true (RssOracle.mk (fun _ => true) (fun _ => true))
      [RssEpisode.mk "ep1"]).1 = 0 ∧
    (rssRun true (RssOracle.mk (fun _ => false) (fun _ => true))
      [RssEpisode.mk "ep1", RssEpisode.mk "ep2"]).1 = 1 ∧
    (rssRun true (RssOracle.mk (fun _ => false) (fun _ => false))
      [RssEpisode.mk "ep1", RssEpisode.mk "ep2"]).1 = 0 ∧
    (∀ i ∈ (["a", "b"] : List String),
      (WOracle.mk (fun _ => true) (fun _ => Except.ok "t")).downloadOk i = true) ∧
    (whisperFillRun (WOracle.mk (fun _ => true) (fun _ => Except.ok "t"))
      ["a", "b"]).loads = (["a", "b"] : List String).length := by
  refine ⟨by decide, ?_, ?_, ?_, by decide, ?_⟩
  · exact (claim6_model_loading true (RssOracle.mk (fun _ => true) (fun _ => true))
      [RssEpisode.mk "ep1"]
      (WOracle.mk (fun _ => true) (fun _ => Except.ok "t")) []).2.2.1 (by decide)
  · have h := (claim6_model_loading true (RssOracle.mk (fun _ => false) (fun _ => true))
      [RssEpisode.mk "ep1", RssEpisode.mk "ep2"]
      (WOracle.mk (fun _ => true) (fun _ => Except.ok "t")) []).1
    rw [h]
    decide
  · have h := (claim6_model_loading true (RssOracle.mk (fun _ => false) (fun _ => false))
      [RssEpisode.mk "ep1", RssEpisode.mk "ep2"]
      (WOracle.mk (fun _ => true) (fun _ => Except.ok "t")) []).1
    rw [h]
    decide
  · exact (claim6_model_loading true (RssOracle.mk (fun _ => false) (fun _ => true))
      [RssEpisode.mk "ep1"]
      (WOracle.mk (fun _ => true) (fun _ => Except.ok "t")) ["a", "b"]).2.2.2 (by decide)
end Harvest
